import Mathlib

/-!
# react-json-graph: Node drag handlers and Graph container

A shallow embedding of `src/Node/index.js` (the draggable node widget) and
`lib/Graph/Graph.js` (the graph container), with the properties of their
event handlers.

Conventions of the embedding

* A component method becomes a function from the component state (and the
  props it reads) to the new state together with the list of calls it makes
  on its collaborators, in program order.
* `this.setState(partial)` merges `partial` into the state.  No handler
  modelled here reads a field after it has set it, so applying the update at
  once gives the same final state as React's batched update.
* JavaScript numbers are modelled by `JSNum`: NaN, the two infinities and
  the finite values.  The result of `+` or `/` on finite operands is the
  exact result passed through a rounding function `round`, which may return
  a nearby finite value or, on overflow, an infinity.  The rounding is a
  parameter of every definition that computes, and the theorems hold for
  every rounding that never returns NaN, the rounding of IEEE doubles among
  them.  The two zeros are not told apart.
-/

/-! ## JavaScript numbers -/

/-- A JavaScript number: NaN, negative infinity, a finite value, or positive
infinity. -/
inductive JSNum where
  | nan
  | ninf
  | fin (q : ℚ)
  | pinf
  deriving DecidableEq

namespace JSNum

/-- The JavaScript `+` on numbers; `round` rounds the exact sum of two finite
operands. -/
def add (round : ℚ → JSNum) : JSNum → JSNum → JSNum
  | nan, _ => nan
  | _, nan => nan
  | pinf, ninf => nan
  | ninf, pinf => nan
  | pinf, _ => pinf
  | _, pinf => pinf
  | ninf, _ => ninf
  | _, ninf => ninf
  | fin a, fin b => round (a + b)

/-- The JavaScript `/` on numbers; `round` rounds the exact quotient of two
finite operands.  A finite non-zero value divided by zero is an infinity,
zero divided by zero is NaN. -/
def div (round : ℚ → JSNum) : JSNum → JSNum → JSNum
  | nan, _ => nan
  | _, nan => nan
  | fin a, fin b =>
      if b = 0 then (if a = 0 then nan else if 0 < a then pinf else ninf)
      else round (a / b)
  | fin _, pinf => fin 0
  | fin _, ninf => fin 0
  | pinf, fin b => if b < 0 then ninf else pinf
  | ninf, fin b => if b < 0 then pinf else ninf
  | pinf, pinf => nan
  | pinf, ninf => nan
  | ninf, pinf => nan
  | ninf, ninf => nan

/-- The JavaScript `<` on numbers: false as soon as an operand is NaN. -/
def lt : JSNum → JSNum → Bool
  | fin a, fin b => decide (a < b)
  | ninf, fin _ => true
  | ninf, pinf => true
  | fin _, pinf => true
  | _, _ => false

/-- The JavaScript `>` on numbers. -/
def gt (a b : JSNum) : Bool := lt b a

/-- The JavaScript `<=` on numbers: false as soon as an operand is NaN. -/
def le : JSNum → JSNum → Bool
  | nan, _ => false
  | _, nan => false
  | a, b => !(lt b a)

/-- The JavaScript `>=` on numbers. -/
def ge (a b : JSNum) : Bool := le b a

/-- The test `Number.isNaN`. -/
def isNaN : JSNum → Bool
  | nan => true
  | _ => false

/-- The test `Number.isFinite`. -/
def isFinite : JSNum → Bool
  | fin _ => true
  | _ => false

/-- A number (not NaN) that is not zero. -/
def isNonZeroNumber : JSNum → Bool
  | nan => false
  | fin q => decide (q ≠ 0)
  | _ => true

/-- The bound from which a value overflows to infinity when rounded to a
double: `2^1024 - 2^970`, half a unit in the last place above
`Number.MAX_VALUE`. -/
def overflowBound : ℚ := 2 ^ 1024 - 2 ^ 970

/-- A rounding used for the concrete inputs: a value beyond the overflow
bound becomes an infinity, as in IEEE rounding to nearest; any other value
is kept as it is, which is what IEEE rounding does to a value that is a
double. -/
def roundInRange (q : ℚ) : JSNum :=
  if overflowBound ≤ q then pinf
  else if q ≤ -overflowBound then ninf
  else fin q

end JSNum

/-! ## The Node component (`src/Node/index.js`) -/

/-- The value of `edge.sourceId` or `edge.targetId`: a string id, or a value
that is not a string (an object, with its label if it has one, or
`undefined`). -/
inductive EndpointId where
  | str (id : String)
  | other (label : Option String)
  deriving DecidableEq

/-- The test `typeof v === 'string'`. -/
def EndpointId.isString : EndpointId → Bool
  | EndpointId.str _ => true
  | EndpointId.other _ => false

/-- Modelled from the spec: the `Edge` type of `../types`, which is not among
the sources.  An edge is the connector between two nodes that is redrawn when
a node moves; the fields are the members the node and graph code use:
`sourceId`, `targetId`, and the ref name under which the graph holds the
component. -/
structure Edge where
  ref : String
  sourceId : EndpointId
  targetId : EndpointId
  deriving DecidableEq

/-- Modelled from the spec: the `Graph` type of `../types`, which is not
among the sources.  It is the DOM element of the graph container; the fields
are the four integer-valued element properties `getGraph` reads. -/
structure GraphElement where
  offsetTop : ℤ
  offsetLeft : ℤ
  clientWidth : ℤ
  clientHeight : ℤ
  deriving DecidableEq

namespace Node

/-- The type `NodeJson`, with `position` flattened to `x` and `y`. -/
structure NodeJson where
  id : String
  label : String
  x : JSNum
  y : JSNum
  deriving DecidableEq

/-- The type `GraphRect`. -/
structure GraphRect where
  width : ℤ
  height : ℤ
  offsetTop : ℤ
  offsetLeft : ℤ
  deriving DecidableEq

/-- The value of the `onChange` prop: absent, present but not a function, or
a function. -/
inductive OnChangeProp where
  | absent
  | notFunction
  | function
  deriving DecidableEq

/-- The props the handlers read: what `props.getGraph()` returns (`none` for
a falsy value) and `props.onChange`. -/
structure Props where
  getGraph : Option GraphElement
  onChange : OnChangeProp
  deriving DecidableEq

/-- The field `edges` of the state. -/
structure Edges where
  input : List Edge
  output : List Edge
  deriving DecidableEq

/-- The type `State`. -/
structure State where
  id : String
  x : JSNum
  y : JSNum
  scale : JSNum
  label : String
  width : JSNum
  height : JSNum
  edges : Edges
  isDragging : Bool
  isCompactView : Bool
  deriving DecidableEq

/-- The members of a mouse event the handlers read.  `button`, `movementX`
and `movementY` are DOM attributes, always finite. -/
structure MouseEvent where
  button : ℤ
  movementX : ℚ
  movementY : ℚ
  deriving DecidableEq

/-- A call a handler makes on a collaborator: on the event, on an edge, or
on the `onChange` prop. -/
inductive Call where
  | stopPropagation
  | preventDefault
  | redraw (edge : Edge)
  | onChange (json : NodeJson)
  deriving DecidableEq

/-- The edges redrawn by a sequence of calls, in order. -/
def redrawCalls : List Call → List Edge
  | [] => []
  | Call.redraw e :: cs => e :: redrawCalls cs
  | _ :: cs => redrawCalls cs

/-- The arguments of the `onChange` calls in a sequence of calls, in order. -/
def onChangeCalls : List Call → List NodeJson
  | [] => []
  | Call.onChange j :: cs => j :: onChangeCalls cs
  | _ :: cs => onChangeCalls cs

/-- The method `getGraph`. -/
def getGraph (props : Props) : Option GraphRect :=
  match props.getGraph with
  | none => none
  | some graph =>
      some
        { offsetTop := graph.offsetTop
          offsetLeft := graph.offsetLeft
          width := graph.clientWidth
          height := graph.clientHeight }

/-- The method `toJSON`. -/
def toJSON (s : State) : NodeJson :=
  { id := s.id, label := s.label, x := s.x, y := s.y }

/-- The method `moveEdges`: redraw the input edges, then the output edges. -/
def moveEdges (s : State) : List Call :=
  s.edges.input.map Call.redraw ++ s.edges.output.map Call.redraw

/-- The handler `_onMouseDown`. -/
def _onMouseDown (s : State) (event : MouseEvent) : State × List Call :=
  if event.button ≠ 0 then (s, [])
  else ({ s with isDragging := true }, [Call.stopPropagation, Call.preventDefault])

/-- The handler `_onMouseUp`. -/
def _onMouseUp (props : Props) (s : State) : State × List Call :=
  let s1 : State := { s with isDragging := false }
  let reported : List Call :=
    match props.onChange with
    | OnChangeProp.function => [Call.onChange (toJSON s1)]
    | _ => []
  (s1, reported ++ [Call.stopPropagation, Call.preventDefault])

/-- The candidate abscissa of `_onMouseMove`: `x + movementX / scale`. -/
def nextX (round : ℚ → JSNum) (s : State) (event : MouseEvent) : JSNum :=
  JSNum.add round s.x (JSNum.div round (JSNum.fin event.movementX) s.scale)

/-- The candidate ordinate of `_onMouseMove`: `y + movementY / scale`. -/
def nextY (round : ℚ → JSNum) (s : State) (event : MouseEvent) : JSNum :=
  JSNum.add round s.y (JSNum.div round (JSNum.fin event.movementY) s.scale)

/-- The rejection test of `_onMouseMove`:
`nextX < 0 || nextY < 0 || nextX + width > graph.width ||
nextY + height > graph.height`. -/
def rejects (round : ℚ → JSNum) (s : State) (graph : GraphRect) (event : MouseEvent) : Bool :=
  JSNum.lt (nextX round s event) (JSNum.fin 0) ||
    JSNum.lt (nextY round s event) (JSNum.fin 0) ||
    JSNum.gt (JSNum.add round (nextX round s event) s.width) (JSNum.fin graph.width) ||
    JSNum.gt (JSNum.add round (nextY round s event) s.height) (JSNum.fin graph.height)

/-- The handler `_onMouseMove`. -/
def _onMouseMove (round : ℚ → JSNum) (props : Props) (s : State) (event : MouseEvent) :
    State × List Call :=
  match getGraph props with
  | none => (s, [])
  | some graph =>
      if !s.isDragging then (s, [])
      else if rejects round s graph event then (s, [])
      else
        let s1 : State := { s with x := nextX round s event, y := nextY round s event }
        (s1, moveEdges s1 ++ [Call.stopPropagation, Call.preventDefault])

/-- The method `addEdge`.  `type` is the name of the list; a name other than
`input` or `output` makes `edges[type].concat` throw, which is `none`. -/
def addEdge (type : String) (edge : Edge) (s : State) : Option State :=
  let c0 := s.isCompactView
  let c1 := if type == "input" && !edge.targetId.isString then false else c0
  let c2 := if type == "output" && !edge.sourceId.isString then false else c1
  if type == "input" then
    some { s with isCompactView := c2,
                  edges := { s.edges with input := s.edges.input ++ [edge] } }
  else if type == "output" then
    some { s with isCompactView := c2,
                  edges := { s.edges with output := s.edges.output ++ [edge] } }
  else none

/-- A mouse event delivered to the node. -/
inductive Event where
  | mouseDown (event : MouseEvent)
  | mouseMove (event : MouseEvent)
  | mouseUp (event : MouseEvent)
  deriving DecidableEq

/-- The state after one event. -/
def step (round : ℚ → JSNum) (props : Props) (s : State) : Event → State
  | Event.mouseDown event => (_onMouseDown s event).1
  | Event.mouseMove event => (_onMouseMove round props s event).1
  | Event.mouseUp _ => (_onMouseUp props s).1

/-- The state after a sequence of events. -/
def run (round : ℚ → JSNum) (props : Props) (s : State) (events : List Event) : State :=
  events.foldl (step round props) s

/-- The node lies inside the graph: `0 <= x`, `0 <= y`,
`x + width <= graph.width` and `y + height <= graph.height`. -/
def inGraph (round : ℚ → JSNum) (graph : GraphRect) (s : State) : Bool :=
  JSNum.le (JSNum.fin 0) s.x && JSNum.le (JSNum.fin 0) s.y &&
    JSNum.le (JSNum.add round s.x s.width) (JSNum.fin graph.width) &&
    JSNum.le (JSNum.add round s.y s.height) (JSNum.fin graph.height)

/-- The candidate satisfies the four bounds: `nextX >= 0`, `nextY >= 0`,
`nextX + width <= graph.width` and `nextY + height <= graph.height`. -/
def withinBounds (round : ℚ → JSNum) (s : State) (graph : GraphRect) (event : MouseEvent) :
    Bool :=
  JSNum.ge (nextX round s event) (JSNum.fin 0) &&
    JSNum.ge (nextY round s event) (JSNum.fin 0) &&
    JSNum.le (JSNum.add round (nextX round s event) s.width) (JSNum.fin graph.width) &&
    JSNum.le (JSNum.add round (nextY round s event) s.height) (JSNum.fin graph.height)

end Node

/-! ## The Graph container (`lib/Graph/Graph.js`) -/

namespace Graph

/-- The value of a component's `el` or of `event.target.parentNode`: an
element, `null`, or `undefined`.  Strict equality `===` on these values is
equality of the terms. -/
inductive DomRef where
  | undefined
  | null
  | element (id : ℕ)
  deriving DecidableEq

/-- Modelled from the spec: the node class that `Graph.js` imports from
`../Node/Node`, which is not among the sources.  It is a parameter of the
model: `N` is the type of its components, and the fields are the members
`Graph.js` reads or calls (`el`, `addEdge`, with `none` for a call that
throws) and the two edge lists of a component. -/
structure NodeClass (N : Type) where
  el : N → DomRef
  input : N → List Edge
  output : N → List Edge
  addEdge : String → Edge → N → Option N

/-- Modelled from the spec: what is assumed of the `addEdge` of the node
class of `../Node/Node`, which is not among the sources: called with the name
`output` or `input` it returns, having appended the edge to the end of the
list of that name and left the other list unchanged. -/
def NodeClass.Appends {N : Type} (cls : NodeClass N) : Prop :=
  ∀ (edge : Edge) (node : N),
    (∃ node', cls.addEdge "output" edge node = some node' ∧
      cls.output node' = cls.output node ++ [edge] ∧ cls.input node' = cls.input node) ∧
    (∃ node', cls.addEdge "input" edge node = some node' ∧
      cls.input node' = cls.input node ++ [edge] ∧ cls.output node' = cls.output node)

/-- An edge of the store: the ids of its source and target nodes. -/
structure EdgeProps where
  source : String
  target : String
  deriving DecidableEq

/-- A node of the store, with the three properties `render` assigns
(`none` while unassigned). -/
structure NodeProps where
  id : String
  x : Option ℤ
  y : Option ℤ
  ref : Option String
  deriving DecidableEq

/-- The ref name of a node, the template literal with prefix `node_`. -/
def nodeRef (id : String) : String := "node_" ++ id

/-- The ref name of an edge, the template literal
`edge_`, source, `_`, target. -/
def edgeRef (source target : String) : String := "edge_" ++ source ++ "_" ++ target

/-- The object `this.refs`, by kind of component: node refs are the names
starting with `node_`, edge refs those starting with `edge_`.  A name without
a component is `undefined`, here `none`. -/
structure Refs (N : Type) where
  node : String → Option N
  edge : String → Option Edge

/-- A call `edge.build(sourceNode, targetNode)`, the nodes given by their ref
names. -/
structure BuildCall where
  edge : Edge
  sourceNode : String
  targetNode : String
  deriving DecidableEq

/-- The call `node.addEdge(type, edge)` on the node component held under the
ref name `ref`; `none` when the call throws. -/
def addEdgeAt {N : Type} (cls : NodeClass N) (nodes : String → Option N) (ref : String)
    (type : String) (edge : Edge) : Option (String → Option N) :=
  match nodes ref with
  | none => none
  | some node =>
      match cls.addEdge type edge node with
      | none => none
      | some node' => some (Function.update nodes ref (some node'))

/-- The node components and the `build` calls made so far during
`componentDidMount`. -/
structure Mounted (N : Type) where
  nodes : String → Option N
  builds : List BuildCall

/-- The body of the `forEach` of `componentDidMount`, for one edge of the
store. -/
def mountEdge {N : Type} (cls : NodeClass N) (edges : String → Option Edge) (m : Mounted N)
    (edgesProps : EdgeProps) : Option (Mounted N) :=
  match m.nodes (nodeRef edgesProps.source), m.nodes (nodeRef edgesProps.target),
    edges (edgeRef edgesProps.source edgesProps.target) with
  | some _, some _, some edge =>
      match addEdgeAt cls m.nodes (nodeRef edgesProps.source) "output" edge with
      | none => none
      | some nodes1 =>
          match addEdgeAt cls nodes1 (nodeRef edgesProps.target) "input" edge with
          | none => none
          | some nodes2 =>
              some
                { nodes := nodes2
                  builds := m.builds ++
                    [{ edge := edge, sourceNode := nodeRef edgesProps.source,
                       targetNode := nodeRef edgesProps.target }] }
  | _, _, _ => some m

/-- The edge loop of `componentDidMount`, over the edges of the store;
`none` when a call throws. -/
def componentDidMount {N : Type} (cls : NodeClass N) (refs : Refs N)
    (edges : List EdgeProps) : Option (Mounted N) :=
  edges.foldlM (mountEdge cls refs.edge) { nodes := refs.node, builds := [] }

/-- The store edge has its source node component, its target node component
and its edge component. -/
def hasComponents {N : Type} (refs : Refs N) (edgesProps : EdgeProps) : Bool :=
  (refs.node (nodeRef edgesProps.source)).isSome &&
    (refs.node (nodeRef edgesProps.target)).isSome &&
    (refs.edge (edgeRef edgesProps.source edgesProps.target)).isSome

/-- The edge components, in store order, of the store edges that satisfy
`keep` and have all three components. -/
def attachedEdges {N : Type} (refs : Refs N) (edges : List EdgeProps)
    (keep : EdgeProps → Bool) : List Edge :=
  edges.filterMap fun edgesProps =>
    if keep edgesProps && hasComponents refs edgesProps then
      refs.edge (edgeRef edgesProps.source edgesProps.target)
    else none

/-- The `build` calls, in store order, for the store edges that have all
three components. -/
def buildCalls {N : Type} (refs : Refs N) (edges : List EdgeProps) : List BuildCall :=
  edges.filterMap fun edgesProps =>
    if hasComponents refs edgesProps then
      (refs.edge (edgeRef edgesProps.source edgesProps.target)).map fun edge =>
        { edge := edge, sourceNode := nodeRef edgesProps.source,
          targetNode := nodeRef edgesProps.target }
    else none

/-- The output list of the node component under the ref name `ref` (empty
when there is none). -/
def outputsAt {N : Type} (cls : NodeClass N) (nodes : String → Option N) (ref : String) :
    List Edge :=
  match nodes ref with
  | some node => cls.output node
  | none => []

/-- The input list of the node component under the ref name `ref` (empty when
there is none). -/
def inputsAt {N : Type} (cls : NodeClass N) (nodes : String → Option N) (ref : String) :
    List Edge :=
  match nodes ref with
  | some node => cls.input node
  | none => []

/-- The member of a click event `handleClick` reads:
`event.target.parentNode`. -/
structure ClickEvent where
  targetParentNode : DomRef
  deriving DecidableEq

/-- The outcome of `handleClick`: the ref names of the node components on
which `deselect` was called, in call order, and whether the handler threw
(reading `el` of a missing component). -/
structure ClickResult where
  deselected : List String
  threw : Bool
  deriving DecidableEq

/-- The handler `handleClick`, over the nodes of the store. -/
def handleClick {N : Type} (cls : NodeClass N) (refs : Refs N) (event : ClickEvent) :
    List NodeProps → ClickResult
  | [] => { deselected := [], threw := false }
  | nodeProps :: rest =>
      match refs.node (nodeRef nodeProps.id) with
      | none => { deselected := [], threw := true }
      | some node =>
          if cls.el node = event.targetParentNode then handleClick cls refs event rest
          else
            { deselected := nodeRef nodeProps.id :: (handleClick cls refs event rest).deselected
              threw := (handleClick cls refs event rest).threw }

/-- The expression `Math.floor(Math.random() * n)`, for the value `random`
returned by `Math.random()`. -/
def floorRandom (random : ℚ) (n : ℤ) : ℤ := ⌊random * n⌋

/-- The body of the node `forEach` of `render`, for the node at `index`, with
`r` the value of `Math.floor(Math.random() * 10)` and `s` that of
`Math.floor(Math.random() * 500)`. -/
def layoutNode (index : ℕ) (parentWidth : ℤ) (r s : ℤ) (nodeProps : NodeProps) : NodeProps :=
  { nodeProps with
    x := some (min ((index : ℤ) * (90 + r) + 50) (parentWidth - 100))
    y := some s
    ref := some ("node_" ++ nodeProps.id) }

/-- The node `forEach` of `render`.  `random k` is the value of the call
number `k` of `Math.random()`; the node at `index` makes the calls `2 * index`
and `2 * index + 1`. -/
def renderNodes (parentWidth : ℤ) (random : ℕ → ℚ) (nodes : List NodeProps) : List NodeProps :=
  nodes.mapIdx fun index nodeProps =>
    layoutNode index parentWidth (floorRandom (random (2 * index)) 10)
      (floorRandom (random (2 * index + 1)) 500) nodeProps

/-- An element pushed to the array `graph` of `render`. -/
inductive Element where
  | edge (ref : String)
  | node (props : NodeProps)
  deriving DecidableEq

/-- The array `graph` built by `render`: the edges, then the laid out
nodes. -/
def render (parentWidth : ℤ) (random : ℕ → ℚ) (edges : List EdgeProps)
    (nodes : List NodeProps) : List Element :=
  edges.map (fun edgeProps => Element.edge (edgeRef edgeProps.source edgeProps.target)) ++
    (renderNodes parentWidth random nodes).map Element.node

end Graph

/-! ## Concrete inputs -/

namespace Node

/-- An edge from node `a` to node `b`. -/
def edgeAB : Edge :=
  { ref := "edge_a_b", sourceId := EndpointId.str "a", targetId := EndpointId.str "b" }

/-- An edge from node `c` to node `a`. -/
def edgeCA : Edge :=
  { ref := "edge_c_a", sourceId := EndpointId.str "c", targetId := EndpointId.str "a" }

/-- An edge whose `targetId` is an object with the label `in`, not a
string. -/
def edgeToPort : Edge :=
  { ref := "edge_c_a", sourceId := EndpointId.str "c",
    targetId := EndpointId.other (some "in") }

/-- A graph element of 100 by 100 pixels. -/
def graph100 : GraphElement :=
  { offsetTop := 0, offsetLeft := 0, clientWidth := 100, clientHeight := 100 }

/-- The rect `getGraph` returns for `graph100`. -/
def rect100 : GraphRect :=
  { width := 100, height := 100, offsetTop := 0, offsetLeft := 0 }

/-- Props with a graph of 100 by 100 and an `onChange` callback. -/
def propsA : Props :=
  { getGraph := some graph100, onChange := OnChangeProp.function }

/-- A node at the origin, 10 by 10, being dragged, with the given scale. -/
def nodeA (scale : JSNum) : State :=
  { id := "a", x := JSNum.fin 0, y := JSNum.fin 0, scale := scale, label := "A",
    width := JSNum.fin 10, height := JSNum.fin 10,
    edges := { input := [edgeCA], output := [edgeAB] },
    isDragging := true, isCompactView := true }

/-- The smallest positive double, `5e-324`, which is `2^(-1074)`. -/
def minValue : ℚ := 1 / 2 ^ 1074

/-- A node at the origin being dragged, of width minus infinity and height
10, with the scale `5e-324`. -/
def nodeW : State :=
  { id := "a", x := JSNum.fin 0, y := JSNum.fin 0, scale := JSNum.fin minValue, label := "A",
    width := JSNum.ninf, height := JSNum.fin 10,
    edges := { input := [edgeCA], output := [edgeAB] },
    isDragging := true, isCompactView := true }

/-- A move that leaves the pointer where it is. -/
def still : MouseEvent := { button := 0, movementX := 0, movementY := 0 }

/-- A move by 5 to the right and 3 down. -/
def move53 : MouseEvent := { button := 0, movementX := 5, movementY := 3 }

/-- A move by 1 to the right. -/
def move10 : MouseEvent := { button := 0, movementX := 1, movementY := 0 }

/-- A press of the left button. -/
def leftDown : MouseEvent := { button := 0, movementX := 0, movementY := 0 }

end Node

namespace Graph

/-- A store node with id `a`, not yet laid out. -/
def storeA : NodeProps := { id := "a", x := none, y := none, ref := none }

/-- A store node with id `b`, not yet laid out. -/
def storeB : NodeProps := { id := "b", x := none, y := none, ref := none }

/-- Modelled from the spec: a component of the node class `../Node/Node`,
which is not among the sources, for the concrete inputs: its element `el`
and its two edge lists. -/
structure SampleNode where
  el : DomRef
  input : List Edge
  output : List Edge
  deriving DecidableEq

/-- Modelled from the spec: the node class `../Node/Node`, which is not among
the sources, for the concrete inputs.  Its `addEdge` appends the edge to the
end of the list of the given type and leaves the other list unchanged, as
`addEdge` of `src/Node/index.js` does; another type name throws. -/
def sampleClass : NodeClass SampleNode :=
  { el := fun node => node.el
    input := fun node => node.input
    output := fun node => node.output
    addEdge := fun type edge node =>
      if type == "input" then some { node with input := node.input ++ [edge] }
      else if type == "output" then some { node with output := node.output ++ [edge] }
      else none }

/-- A sample node component on the element `el`, with empty edge lists. -/
def component (el : ℕ) : SampleNode :=
  { el := DomRef.element el, input := [], output := [] }

/-- The refs of a graph with the nodes `a` (element 1) and `b` (element 2)
and the edge from `a` to `b`. -/
def refsAB : Refs SampleNode :=
  { node := fun name =>
      if name = "node_a" then some (component 1)
      else if name = "node_b" then some (component 2)
      else none
    edge := fun name => if name = "edge_a_b" then some Node.edgeAB else none }

/-- A click whose target is a child of the element of node `a`. -/
def clickOnA : ClickEvent := { targetParentNode := DomRef.element 1 }

/-- The draws of `Math.random()`: always one half. -/
def halves : ℕ → ℚ := fun _ => 1 / 2

end Graph

/-! ## JavaScript comparisons and arithmetic -/

namespace JSNum

theorem le_ne_nan {a b : JSNum} (h : le a b = true) : a ≠ nan ∧ b ≠ nan := by
  cases a <;> cases b <;> simp_all [le]

theorem lt_false_iff_ge {a b : JSNum} (ha : a ≠ nan) (hb : b ≠ nan) :
    lt a b = false ↔ ge a b = true := by
  cases a <;> cases b <;> simp_all [le, ge, lt]

theorem gt_false_iff_le {a b : JSNum} (ha : a ≠ nan) (hb : b ≠ nan) :
    gt a b = false ↔ le a b = true := by
  cases a <;> cases b <;> simp_all [le, gt, lt]

theorem roundInRange_ne_nan (q : ℚ) : roundInRange q ≠ nan := by
  unfold roundInRange
  split
  · simp
  · split <;> simp

theorem div_fin_ne_nan (round : ℚ → JSNum) (hround : ∀ q, round q ≠ nan) (m : ℚ)
    {sc : JSNum} (h : isNonZeroNumber sc = true) : div round (fin m) sc ≠ nan := by
  cases sc <;> simp_all [isNonZeroNumber, div]

theorem add_ne_nan_left (round : ℚ → JSNum) (hround : ∀ q, round q ≠ nan) {a b : JSNum}
    (ha : isFinite a = true) (hb : b ≠ nan) : add round a b ≠ nan := by
  cases a <;> cases b <;> simp_all [isFinite, add]

theorem add_ne_nan_right (round : ℚ → JSNum) (hround : ∀ q, round q ≠ nan) {a b : JSNum}
    (ha : a ≠ nan) (hb : isFinite b = true) : add round a b ≠ nan := by
  cases a <;> cases b <;> simp_all [isFinite, add]

theorem isFinite_of_inside (round : ℚ → JSNum) {x w : JSNum} {g : ℚ}
    (hw : isFinite w = true) (h0 : le (fin 0) x = true)
    (h1 : le (add round x w) (fin g) = true) : isFinite x = true := by
  cases x <;> cases w <;> simp_all [isFinite, add, le, lt]

theorem axis_stays_inside (round : ℚ → JSNum) (hround : ∀ q, round q ≠ nan)
    (x w sc : JSNum) (m : ℚ) (g : ℤ)
    (hw : isFinite w = true) (hsc : isNonZeroNumber sc = true)
    (h0 : le (fin 0) x = true) (h1 : le (add round x w) (fin g) = true)
    (n0 : lt (add round x (div round (fin m) sc)) (fin 0) = false)
    (n1 : gt (add round (add round x (div round (fin m) sc)) w) (fin g) = false) :
    le (fin 0) (add round x (div round (fin m) sc)) = true ∧
      le (add round (add round x (div round (fin m) sc)) w) (fin g) = true := by
  have hx : isFinite x = true := isFinite_of_inside round hw h0 h1
  have hd := div_fin_ne_nan round hround m hsc
  have hn := add_ne_nan_left round hround hx hd
  have hs := add_ne_nan_right round hround hn hw
  have z : fin 0 ≠ nan := by simp
  have zg : fin (g : ℚ) ≠ nan := by simp
  exact ⟨(lt_false_iff_ge hn z).1 n0, (gt_false_iff_le hs zg).1 n1⟩

end JSNum

/-! ## Node: auxiliary facts -/

namespace Node

theorem rejects_false_iff_withinBounds (round : ℚ → JSNum) (s : State) (graph : GraphRect)
    (event : MouseEvent)
    (hx : nextX round s event ≠ JSNum.nan) (hy : nextY round s event ≠ JSNum.nan)
    (hw : JSNum.add round (nextX round s event) s.width ≠ JSNum.nan)
    (hh : JSNum.add round (nextY round s event) s.height ≠ JSNum.nan) :
    rejects round s graph event = false ↔ withinBounds round s graph event = true := by
  have h0 : JSNum.fin 0 ≠ JSNum.nan := by simp
  have hgw : JSNum.fin (graph.width : ℚ) ≠ JSNum.nan := by simp
  have hgh : JSNum.fin (graph.height : ℚ) ≠ JSNum.nan := by simp
  simp only [rejects, withinBounds, Bool.or_eq_false_iff, Bool.and_eq_true,
    JSNum.lt_false_iff_ge hx h0, JSNum.lt_false_iff_ge hy h0,
    JSNum.gt_false_iff_le hw hgw, JSNum.gt_false_iff_le hh hgh]

theorem redrawCalls_append (xs ys : List Call) :
    redrawCalls (xs ++ ys) = redrawCalls xs ++ redrawCalls ys := by
  induction xs with
  | nil => rfl
  | cons c cs ih => cases c <;> simp [redrawCalls, ih]

theorem redrawCalls_map_redraw (es : List Edge) : redrawCalls (es.map Call.redraw) = es := by
  induction es with
  | nil => rfl
  | cons e es ih => simp [redrawCalls, ih]

theorem redrawCalls_moveEdges (s : State) :
    redrawCalls (moveEdges s) = s.edges.input ++ s.edges.output := by
  simp [moveEdges, redrawCalls_append, redrawCalls_map_redraw]

theorem onMouseMove_accepted (round : ℚ → JSNum) (props : Props) (s : State)
    (event : MouseEvent) (graph : GraphRect) (hd : s.isDragging = true)
    (hg : getGraph props = some graph) (hr : rejects round s graph event = false) :
    _onMouseMove round props s event =
      ({ s with x := nextX round s event, y := nextY round s event },
        moveEdges s ++ [Call.stopPropagation, Call.preventDefault]) := by
  simp [_onMouseMove, hd, hg, hr, moveEdges]

theorem rejects_nan_candidate (round : ℚ → JSNum) (s : State) (graph : GraphRect)
    (event : MouseEvent) (hx : nextX round s event = JSNum.nan)
    (hy : nextY round s event = JSNum.nan) : rejects round s graph event = false := by
  simp [rejects, hx, hy, JSNum.add, JSNum.lt, JSNum.gt]

theorem inGraph_congr (round : ℚ → JSNum) (graph : GraphRect) {s t : State} (hx : t.x = s.x)
    (hy : t.y = s.y) (hw : t.width = s.width) (hh : t.height = s.height) :
    inGraph round graph t = inGraph round graph s := by
  simp [inGraph, hx, hy, hw, hh]

theorem inGraph_false_of_sum_nan (round : ℚ → JSNum) (graph : GraphRect) (s : State)
    (h : JSNum.add round s.x s.width = JSNum.nan) : inGraph round graph s = false := by
  simp [inGraph, h, JSNum.le]

theorem inGraph_false_of_x_nan (round : ℚ → JSNum) (graph : GraphRect) (s : State)
    (h : s.x = JSNum.nan) : inGraph round graph s = false := by
  simp [inGraph, h, JSNum.le]

theorem step_keeps_size (round : ℚ → JSNum) (props : Props) (s : State) (e : Event) :
    (step round props s e).width = s.width ∧ (step round props s e).height = s.height ∧
      (step round props s e).scale = s.scale := by
  cases e with
  | mouseDown event =>
      simp only [step, _onMouseDown]
      split <;> simp
  | mouseMove event =>
      simp only [step, _onMouseMove]
      split
      · simp
      · split
        · simp
        · split <;> simp
  | mouseUp event => simp [step, _onMouseUp]

theorem step_stays_inGraph (round : ℚ → JSNum) (hround : ∀ q, round q ≠ JSNum.nan)
    (props : Props) (graph : GraphRect) (s : State) (e : Event)
    (hg : getGraph props = some graph) (hsc : s.scale.isNonZeroNumber = true)
    (hw : s.width.isFinite = true) (hh : s.height.isFinite = true)
    (hin : inGraph round graph s = true) : inGraph round graph (step round props s e) = true := by
  cases e with
  | mouseDown event =>
      rw [← hin]
      apply inGraph_congr <;> (simp only [step, _onMouseDown]; split <;> rfl)
  | mouseUp event =>
      rw [← hin]
      apply inGraph_congr <;> simp [step, _onMouseUp]
  | mouseMove event =>
      simp only [step, _onMouseMove, hg]
      split
      · exact hin
      · split
        · exact hin
        · rename_i hrej
          simp only [Bool.not_eq_true] at hrej
          simp only [rejects, Bool.or_eq_false_iff] at hrej
          obtain ⟨⟨⟨rx, ry⟩, rw⟩, rh⟩ := hrej
          simp only [inGraph, Bool.and_eq_true] at hin
          obtain ⟨⟨⟨ix, iy⟩, iw⟩, ih⟩ := hin
          have ax := JSNum.axis_stays_inside round hround s.x s.width s.scale event.movementX
            graph.width hw hsc ix iw rx rw
          have ay := JSNum.axis_stays_inside round hround s.y s.height s.scale event.movementY
            graph.height hh hsc iy ih ry rh
          simp only [inGraph, Bool.and_eq_true]
          exact ⟨⟨⟨ax.1, ay.1⟩, ax.2⟩, ay.2⟩

theorem run_invariant (round : ℚ → JSNum) (hround : ∀ q, round q ≠ JSNum.nan)
    (props : Props) (graph : GraphRect) (events : List Event) :
    ∀ s : State, getGraph props = some graph → s.scale.isNonZeroNumber = true →
      s.width.isFinite = true → s.height.isFinite = true →
      inGraph round graph s = true →
      inGraph round graph (run round props s events) = true ∧
        (run round props s events).width = s.width ∧
        (run round props s events).height = s.height ∧
        (run round props s events).scale = s.scale := by
  induction events with
  | nil => intro s _ _ _ _ hin; exact ⟨hin, rfl, rfl, rfl⟩
  | cons e es ih =>
      intro s hg hsc hw hh hin
      have hk := step_keeps_size round props s e
      have h1 := step_stays_inGraph round hround props graph s e hg hsc hw hh hin
      have h2 := ih (step round props s e) hg (by rw [hk.2.2]; exact hsc)
        (by rw [hk.1]; exact hw) (by rw [hk.2.1]; exact hh) h1
      simp only [run, List.foldl_cons] at h2 ⊢
      exact ⟨h2.1, h2.2.1.trans hk.1, h2.2.2.1.trans hk.2.1, h2.2.2.2.trans hk.2.2⟩

end Node

/-! ## Node: evaluation at the concrete inputs -/

namespace Node

theorem roundInRange_of_small (q : ℚ) (h1 : -1000 ≤ q) (h2 : q ≤ 1000) :
    JSNum.roundInRange q = JSNum.fin q := by
  have hb : (1000 : ℚ) < JSNum.overflowBound := by norm_num [JSNum.overflowBound]
  have c1 : ¬ JSNum.overflowBound ≤ q := by intro h; linarith
  have c2 : ¬ q ≤ -JSNum.overflowBound := by intro h; linarith
  simp [JSNum.roundInRange, c1, c2]

theorem nextX_nodeA_move53 : nextX JSNum.roundInRange (nodeA (JSNum.fin 1)) move53 = JSNum.fin 5 := by
  have e1 : JSNum.roundInRange 5 = JSNum.fin 5 := roundInRange_of_small 5 (by norm_num) (by norm_num)
  simp [nextX, nodeA, move53, JSNum.add, JSNum.div, e1]

theorem nextY_nodeA_move53 : nextY JSNum.roundInRange (nodeA (JSNum.fin 1)) move53 = JSNum.fin 3 := by
  have e1 : JSNum.roundInRange 3 = JSNum.fin 3 := roundInRange_of_small 3 (by norm_num) (by norm_num)
  simp [nextY, nodeA, move53, JSNum.add, JSNum.div, e1]

theorem rejects_nodeA_move53 :
    rejects JSNum.roundInRange (nodeA (JSNum.fin 1)) rect100 move53 = false := by
  have e1 : JSNum.roundInRange 15 = JSNum.fin 15 :=
    roundInRange_of_small 15 (by norm_num) (by norm_num)
  have e2 : JSNum.roundInRange 13 = JSNum.fin 13 :=
    roundInRange_of_small 13 (by norm_num) (by norm_num)
  have a1 : JSNum.add JSNum.roundInRange (JSNum.fin 5) (JSNum.fin 10) = JSNum.fin 15 := by
    norm_num [JSNum.add, e1]
  have a2 : JSNum.add JSNum.roundInRange (JSNum.fin 3) (JSNum.fin 10) = JSNum.fin 13 := by
    norm_num [JSNum.add, e2]
  have w : (nodeA (JSNum.fin 1)).width = JSNum.fin 10 := rfl
  have h : (nodeA (JSNum.fin 1)).height = JSNum.fin 10 := rfl
  rw [rejects, nextX_nodeA_move53, nextY_nodeA_move53, w, h, a1, a2]
  norm_num [JSNum.lt, JSNum.gt, rect100]

theorem inGraph_nodeA : inGraph JSNum.roundInRange rect100 (nodeA (JSNum.fin 1)) = true := by
  have e1 : JSNum.roundInRange 10 = JSNum.fin 10 :=
    roundInRange_of_small 10 (by norm_num) (by norm_num)
  have a1 : JSNum.add JSNum.roundInRange (JSNum.fin 0) (JSNum.fin 10) = JSNum.fin 10 := by
    norm_num [JSNum.add, e1]
  have x : (nodeA (JSNum.fin 1)).x = JSNum.fin 0 := rfl
  have y : (nodeA (JSNum.fin 1)).y = JSNum.fin 0 := rfl
  have w : (nodeA (JSNum.fin 1)).width = JSNum.fin 10 := rfl
  have h : (nodeA (JSNum.fin 1)).height = JSNum.fin 10 := rfl
  rw [inGraph, x, y, w, h, a1]
  norm_num [JSNum.le, JSNum.lt, rect100]

theorem nextX_nodeA_nan (event : MouseEvent) :
    nextX JSNum.roundInRange (nodeA JSNum.nan) event = JSNum.nan := by
  simp [nextX, nodeA, JSNum.add, JSNum.div]

theorem nextY_nodeA_nan (event : MouseEvent) :
    nextY JSNum.roundInRange (nodeA JSNum.nan) event = JSNum.nan := by
  simp [nextY, nodeA, JSNum.add, JSNum.div]

theorem nextX_nodeW_move10 : nextX JSNum.roundInRange nodeW move10 = JSNum.pinf := by
  have e1 : JSNum.roundInRange (1 / minValue) = JSNum.pinf := by
    norm_num [JSNum.roundInRange, JSNum.overflowBound, minValue]
  have hm : minValue ≠ 0 := by norm_num [minValue]
  simp [nextX, nodeW, move10, JSNum.add, JSNum.div, hm]
  rw [← one_div, e1]

theorem nextY_nodeW_move10 : nextY JSNum.roundInRange nodeW move10 = JSNum.fin 0 := by
  have e0 : JSNum.roundInRange 0 = JSNum.fin 0 := roundInRange_of_small 0 (by norm_num) (by norm_num)
  have hm : minValue ≠ 0 := by norm_num [minValue]
  simp [nextY, nodeW, move10, JSNum.add, JSNum.div, hm, e0]

theorem rejects_nodeW_move10 : rejects JSNum.roundInRange nodeW rect100 move10 = false := by
  have e1 : JSNum.roundInRange 10 = JSNum.fin 10 :=
    roundInRange_of_small 10 (by norm_num) (by norm_num)
  have a1 : JSNum.add JSNum.roundInRange (JSNum.fin 0) (JSNum.fin 10) = JSNum.fin 10 := by
    norm_num [JSNum.add, e1]
  have w : nodeW.width = JSNum.ninf := rfl
  have h : nodeW.height = JSNum.fin 10 := rfl
  rw [rejects, nextX_nodeW_move10, nextY_nodeW_move10, w, h, a1]
  norm_num [JSNum.lt, JSNum.gt, JSNum.add, rect100]

theorem withinBounds_nodeW_move10 :
    withinBounds JSNum.roundInRange nodeW rect100 move10 = false := by
  have w : nodeW.width = JSNum.ninf := rfl
  rw [withinBounds, nextX_nodeW_move10, w]
  simp [JSNum.add, JSNum.le]

theorem inGraph_nodeW : inGraph JSNum.roundInRange rect100 nodeW = true := by
  have e1 : JSNum.roundInRange 10 = JSNum.fin 10 :=
    roundInRange_of_small 10 (by norm_num) (by norm_num)
  have a1 : JSNum.add JSNum.roundInRange (JSNum.fin 0) (JSNum.fin 10) = JSNum.fin 10 := by
    norm_num [JSNum.add, e1]
  have x : nodeW.x = JSNum.fin 0 := rfl
  have y : nodeW.y = JSNum.fin 0 := rfl
  have w : nodeW.width = JSNum.ninf := rfl
  have h : nodeW.height = JSNum.fin 10 := rfl
  rw [inGraph, x, y, w, h, a1]
  norm_num [JSNum.le, JSNum.lt, JSNum.add, rect100]

end Node

/-! ## Node: the mouse handlers -/

namespace Node

/-- C3. `_onMouseDown` reacts to the left button only: with `event.button`
other than 0 the state is unchanged and neither `stopPropagation` nor
`preventDefault` is called; with `event.button` equal to 0 the new state has
`isDragging` true, every other field unchanged, and `stopPropagation` then
`preventDefault` are called. -/
theorem onMouseDown_left_button_only (s : State) (event : MouseEvent) :
    (event.button ≠ 0 → _onMouseDown s event = (s, [])) ∧
    (event.button = 0 →
      (_onMouseDown s event).1.isDragging = true ∧
      (_onMouseDown s event).1.id = s.id ∧
      (_onMouseDown s event).1.x = s.x ∧
      (_onMouseDown s event).1.y = s.y ∧
      (_onMouseDown s event).1.scale = s.scale ∧
      (_onMouseDown s event).1.label = s.label ∧
      (_onMouseDown s event).1.width = s.width ∧
      (_onMouseDown s event).1.height = s.height ∧
      (_onMouseDown s event).1.edges = s.edges ∧
      (_onMouseDown s event).1.isCompactView = s.isCompactView ∧
      (_onMouseDown s event).2 = [Call.stopPropagation, Call.preventDefault]) := by
  constructor
  · intro h
    simp [_onMouseDown, h]
  · intro h
    simp [_onMouseDown, h]

/-- C3, at a concrete input: a left press on a node that is not dragged
starts the drag and makes the two calls on the event. -/
theorem onMouseDown_left_button_only_witness :
    leftDown.button = 0 ∧
    (_onMouseDown { nodeA (JSNum.fin 1) with isDragging := false } leftDown).1.isDragging = true ∧
    (_onMouseDown { nodeA (JSNum.fin 1) with isDragging := false } leftDown).2 =
      [Call.stopPropagation, Call.preventDefault] :=
  have h := (onMouseDown_left_button_only
    { nodeA (JSNum.fin 1) with isDragging := false } leftDown).2 rfl
  ⟨rfl, h.1, h.2.2.2.2.2.2.2.2.2.2⟩

/-- C2. `_onMouseUp` ends the drag and reports the node: `isDragging` becomes
false and every other field is unchanged; `onChange` is called exactly once
when the prop is a function, with the node's `id`, `label`, `x` and `y`, and
is not called otherwise; after an accepted mouse move the position reported
is the moved position, whatever the rounding of the arithmetic. -/
theorem onMouseUp_reports_node (props : Props) (s : State) :
    ((_onMouseUp props s).1.isDragging = false ∧
      (_onMouseUp props s).1.id = s.id ∧
      (_onMouseUp props s).1.x = s.x ∧
      (_onMouseUp props s).1.y = s.y ∧
      (_onMouseUp props s).1.scale = s.scale ∧
      (_onMouseUp props s).1.label = s.label ∧
      (_onMouseUp props s).1.width = s.width ∧
      (_onMouseUp props s).1.height = s.height ∧
      (_onMouseUp props s).1.edges = s.edges ∧
      (_onMouseUp props s).1.isCompactView = s.isCompactView) ∧
    (props.onChange = OnChangeProp.function →
      onChangeCalls (_onMouseUp props s).2 =
        [{ id := s.id, label := s.label, x := s.x, y := s.y }]) ∧
    (props.onChange ≠ OnChangeProp.function → onChangeCalls (_onMouseUp props s).2 = []) ∧
    (∀ (round : ℚ → JSNum) (graph : GraphRect) (event : MouseEvent),
      props.onChange = OnChangeProp.function → s.isDragging = true →
      getGraph props = some graph → rejects round s graph event = false →
      onChangeCalls (_onMouseUp props (_onMouseMove round props s event).1).2 =
        [{ id := s.id, label := s.label, x := nextX round s event,
           y := nextY round s event }]) := by
  refine ⟨⟨rfl, rfl, rfl, rfl, rfl, rfl, rfl, rfl, rfl, rfl⟩, ?_, ?_, ?_⟩
  · intro h
    simp [_onMouseUp, h, onChangeCalls, toJSON]
  · intro h
    cases hp : props.onChange <;> simp_all [_onMouseUp, onChangeCalls]
  · intro round graph event h hd hg hr
    simp [_onMouseUp, _onMouseMove, h, hd, hg, hr, onChangeCalls, toJSON]

/-- C2, at a concrete input: releasing the button after moving the node at
the origin by (5, 3) at scale 1 reports the position (5, 3). -/
theorem onMouseUp_reports_node_witness :
    propsA.onChange = OnChangeProp.function ∧
    rejects JSNum.roundInRange (nodeA (JSNum.fin 1)) rect100 move53 = false ∧
    onChangeCalls (_onMouseUp propsA
        (_onMouseMove JSNum.roundInRange propsA (nodeA (JSNum.fin 1)) move53).1).2 =
      [{ id := "a", label := "A", x := JSNum.fin 5, y := JSNum.fin 3 }] := by
  have h := (onMouseUp_reports_node propsA (nodeA (JSNum.fin 1))).2.2.2 JSNum.roundInRange
    rect100 move53 rfl rfl rfl rejects_nodeA_move53
  refine ⟨rfl, rejects_nodeA_move53, ?_⟩
  rw [h, nextX_nodeA_move53, nextY_nodeA_move53]
  rfl

/-- C1 (amended). `_onMouseMove` redraws the edges exactly when it moves the
node, whatever the rounding of the arithmetic: if the node is dragging,
`getGraph()` returns a rect and none of the rejection tests `nextX < 0`,
`nextY < 0`, `nextX + width > graph.width`, `nextY + height > graph.height`
is true, `redraw` is called on the edges of `edges.input` in list order and
then on those of `edges.output` in list order; in every other case no edge is
redrawn.  When none of `nextX`, `nextY`, `nextX + width`, `nextY + height` is
NaN, the rejection tests are all false exactly when `nextX >= 0`,
`nextY >= 0`, `nextX + width <= graph.width` and
`nextY + height <= graph.height`. -/
theorem onMouseMove_redraws_edges (round : ℚ → JSNum) (props : Props) (s : State)
    (event : MouseEvent) :
    (∀ graph : GraphRect, s.isDragging = true → getGraph props = some graph →
      rejects round s graph event = false →
      redrawCalls (_onMouseMove round props s event).2 = s.edges.input ++ s.edges.output) ∧
    ((s.isDragging = false ∨ getGraph props = none ∨
        ∃ graph : GraphRect, getGraph props = some graph ∧ rejects round s graph event = true) →
      redrawCalls (_onMouseMove round props s event).2 = []) ∧
    (∀ graph : GraphRect, nextX round s event ≠ JSNum.nan → nextY round s event ≠ JSNum.nan →
      JSNum.add round (nextX round s event) s.width ≠ JSNum.nan →
      JSNum.add round (nextY round s event) s.height ≠ JSNum.nan →
      (rejects round s graph event = false ↔ withinBounds round s graph event = true)) := by
  refine ⟨?_, ?_, ?_⟩
  · intro graph hd hg hr
    simp [_onMouseMove, hd, hg, hr, redrawCalls_append, redrawCalls_moveEdges, redrawCalls]
  · rintro (hd | hg | ⟨graph, hg, hr⟩)
    · cases h : getGraph props <;> simp [_onMouseMove, h, hd, redrawCalls]
    · simp [_onMouseMove, hg, redrawCalls]
    · cases hd : s.isDragging <;> simp [_onMouseMove, hg, hr, hd, redrawCalls]
  · intro graph hx hy hw hh
    exact rejects_false_iff_withinBounds round s graph event hx hy hw hh

/-- C1, at a concrete input: moving the dragged node at the origin by (5, 3)
at scale 1 inside a graph of 100 by 100 redraws its input edge and then its
output edge. -/
theorem onMouseMove_redraws_edges_witness :
    rejects JSNum.roundInRange (nodeA (JSNum.fin 1)) rect100 move53 = false ∧
    redrawCalls (_onMouseMove JSNum.roundInRange propsA (nodeA (JSNum.fin 1)) move53).2 =
      [edgeCA, edgeAB] :=
  ⟨rejects_nodeA_move53,
    (onMouseMove_redraws_edges JSNum.roundInRange propsA (nodeA (JSNum.fin 1)) move53).1
      rect100 rfl rfl rejects_nodeA_move53⟩

/-- C1 as stated fails: with scale 0 and a move by (0, 0) the candidate is
NaN, so `nextX >= 0` is false, and yet both edges of the dragged node are
redrawn. -/
theorem onMouseMove_redraws_on_nan_candidate :
    (nodeA (JSNum.fin 0)).isDragging = true ∧
    getGraph propsA = some rect100 ∧
    nextX JSNum.roundInRange (nodeA (JSNum.fin 0)) still = JSNum.nan ∧
    JSNum.ge (nextX JSNum.roundInRange (nodeA (JSNum.fin 0)) still) (JSNum.fin 0) = false ∧
    withinBounds JSNum.roundInRange (nodeA (JSNum.fin 0)) rect100 still = false ∧
    redrawCalls (_onMouseMove JSNum.roundInRange propsA (nodeA (JSNum.fin 0)) still).2 =
      [edgeCA, edgeAB] := by
  have hn : nextX JSNum.roundInRange (nodeA (JSNum.fin 0)) still = JSNum.nan := by
    simp [nextX, nodeA, still, JSNum.add, JSNum.div]
  have hm : nextY JSNum.roundInRange (nodeA (JSNum.fin 0)) still = JSNum.nan := by
    simp [nextY, nodeA, still, JSNum.add, JSNum.div]
  refine ⟨rfl, rfl, hn, ?_, ?_, ?_⟩
  · rw [hn]; rfl
  · simp [withinBounds, hn, JSNum.ge, JSNum.le]
  · rw [onMouseMove_accepted JSNum.roundInRange propsA (nodeA (JSNum.fin 0)) still rect100 rfl rfl
      (rejects_nan_candidate _ _ _ _ hn hm)]
    simp [redrawCalls_append, redrawCalls_moveEdges, redrawCalls, nodeA]

/-- C7 (amended). `_onMouseMove` moves a dragged node all-or-nothing: for a
state with finite `x`, `y`, `width` and `height` and a scale that is a
non-zero number (NaN excluded), and for every rounding of the arithmetic that
never gives NaN, if the node is dragging and `getGraph()` returns a rect,
then either the candidate is within the four bounds and the new state has
`x = nextX` and `y = nextY`, or a rejection test is true on at least one axis
and `x` and `y` are both unchanged; if the node is not dragging or there is
no graph the state is unchanged; in every case all fields other than `x` and
`y` are unchanged. -/
theorem onMouseMove_all_or_nothing (round : ℚ → JSNum) (hround : ∀ q, round q ≠ JSNum.nan)
    (props : Props) (s : State) (event : MouseEvent)
    (hx : s.x.isFinite = true) (hy : s.y.isFinite = true)
    (hw : s.width.isFinite = true) (hh : s.height.isFinite = true)
    (hsc : s.scale.isNonZeroNumber = true) :
    (∀ graph : GraphRect, s.isDragging = true → getGraph props = some graph →
      (withinBounds round s graph event = true ∧
        (_onMouseMove round props s event).1.x = nextX round s event ∧
        (_onMouseMove round props s event).1.y = nextY round s event) ∨
      ((JSNum.lt (nextX round s event) (JSNum.fin 0) = true ∨
          JSNum.gt (JSNum.add round (nextX round s event) s.width) (JSNum.fin graph.width) =
            true ∨
          JSNum.lt (nextY round s event) (JSNum.fin 0) = true ∨
          JSNum.gt (JSNum.add round (nextY round s event) s.height) (JSNum.fin graph.height) =
            true) ∧
        (_onMouseMove round props s event).1.x = s.x ∧
        (_onMouseMove round props s event).1.y = s.y)) ∧
    ((s.isDragging = false ∨ getGraph props = none) →
      (_onMouseMove round props s event).1 = s) ∧
    ((_onMouseMove round props s event).1.id = s.id ∧
      (_onMouseMove round props s event).1.scale = s.scale ∧
      (_onMouseMove round props s event).1.label = s.label ∧
      (_onMouseMove round props s event).1.width = s.width ∧
      (_onMouseMove round props s event).1.height = s.height ∧
      (_onMouseMove round props s event).1.edges = s.edges ∧
      (_onMouseMove round props s event).1.isDragging = s.isDragging ∧
      (_onMouseMove round props s event).1.isCompactView = s.isCompactView) := by
  refine ⟨?_, ?_, ?_⟩
  · intro graph hd hg
    have nx : nextX round s event ≠ JSNum.nan :=
      JSNum.add_ne_nan_left round hround hx (JSNum.div_fin_ne_nan round hround _ hsc)
    have ny : nextY round s event ≠ JSNum.nan :=
      JSNum.add_ne_nan_left round hround hy (JSNum.div_fin_ne_nan round hround _ hsc)
    have nw : JSNum.add round (nextX round s event) s.width ≠ JSNum.nan :=
      JSNum.add_ne_nan_right round hround nx hw
    have nh : JSNum.add round (nextY round s event) s.height ≠ JSNum.nan :=
      JSNum.add_ne_nan_right round hround ny hh
    have hiff := rejects_false_iff_withinBounds round s graph event nx ny nw nh
    cases hr : rejects round s graph event
    · left
      refine ⟨hiff.1 hr, ?_, ?_⟩ <;> simp [_onMouseMove, hd, hg, hr]
    · right
      refine ⟨?_, ?_, ?_⟩
      · simp only [rejects, Bool.or_eq_true] at hr
        tauto
      · simp [_onMouseMove, hd, hg, hr]
      · simp [_onMouseMove, hd, hg, hr]
  · rintro (hd | hg)
    · cases h : getGraph props <;> simp [_onMouseMove, h, hd]
    · simp [_onMouseMove, hg]
  · simp only [_onMouseMove]
    split
    · simp
    · split
      · simp
      · split <;> simp

/-- C7, at a concrete input: the dragged node at the origin, moved by (5, 3)
at scale 1 inside a graph of 100 by 100, lands on (5, 3). -/
theorem onMouseMove_all_or_nothing_witness :
    withinBounds JSNum.roundInRange (nodeA (JSNum.fin 1)) rect100 move53 = true ∧
    (_onMouseMove JSNum.roundInRange propsA (nodeA (JSNum.fin 1)) move53).1.x = JSNum.fin 5 ∧
    (_onMouseMove JSNum.roundInRange propsA (nodeA (JSNum.fin 1)) move53).1.y = JSNum.fin 3 := by
  have h := (onMouseMove_all_or_nothing JSNum.roundInRange JSNum.roundInRange_ne_nan propsA
    (nodeA (JSNum.fin 1)) move53 rfl rfl rfl rfl
    (by simp [nodeA, JSNum.isNonZeroNumber])).1 rect100 rfl rfl
  have hl : JSNum.lt (JSNum.fin 5) (JSNum.fin 0) = false := by norm_num [JSNum.lt]
  have hl3 : JSNum.lt (JSNum.fin 3) (JSNum.fin 0) = false := by norm_num [JSNum.lt]
  have hr := rejects_nodeA_move53
  simp only [rejects, Bool.or_eq_false_iff] at hr
  rw [nextX_nodeA_move53, nextY_nodeA_move53] at h hr
  rcases h with h | h
  · exact h
  · simp [hl, hl3, hr.1.2, hr.2] at h

/-- C7 as stated fails.  With the non-zero scale `5e-324`, `x = 0` and width
minus infinity, a move by 1 overflows: the candidate is plus infinity, the
sum `nextX + width` is NaN, so the candidate is not within the bounds, and
yet `x` is changed (to plus infinity).  With the scale NaN, which is not 0
either, the candidate is NaN, not within the bounds, and `x` is changed to
NaN. -/
theorem onMouseMove_moves_outside_bounds :
    (nodeW.scale ≠ JSNum.fin 0 ∧ nodeW.isDragging = true ∧ getGraph propsA = some rect100 ∧
      withinBounds JSNum.roundInRange nodeW rect100 move10 = false ∧
      (_onMouseMove JSNum.roundInRange propsA nodeW move10).1.x = JSNum.pinf ∧
      (_onMouseMove JSNum.roundInRange propsA nodeW move10).1.x ≠ nodeW.x) ∧
    ((nodeA JSNum.nan).scale ≠ JSNum.fin 0 ∧ (nodeA JSNum.nan).isDragging = true ∧
      withinBounds JSNum.roundInRange (nodeA JSNum.nan) rect100 move53 = false ∧
      (_onMouseMove JSNum.roundInRange propsA (nodeA JSNum.nan) move53).1.x = JSNum.nan ∧
      (_onMouseMove JSNum.roundInRange propsA (nodeA JSNum.nan) move53).1.x ≠
        (nodeA JSNum.nan).x) := by
  have hxW : (_onMouseMove JSNum.roundInRange propsA nodeW move10).1.x = JSNum.pinf := by
    rw [onMouseMove_accepted JSNum.roundInRange propsA nodeW move10 rect100 rfl rfl
      rejects_nodeW_move10]
    exact nextX_nodeW_move10
  have hxN : (_onMouseMove JSNum.roundInRange propsA (nodeA JSNum.nan) move53).1.x =
      JSNum.nan := by
    rw [onMouseMove_accepted JSNum.roundInRange propsA (nodeA JSNum.nan) move53 rect100 rfl rfl
      (rejects_nan_candidate _ _ _ _ (nextX_nodeA_nan move53) (nextY_nodeA_nan move53))]
    exact nextX_nodeA_nan move53
  refine ⟨⟨?_, rfl, rfl, withinBounds_nodeW_move10, hxW, ?_⟩, ⟨?_, rfl, ?_, hxN, ?_⟩⟩
  · norm_num [nodeW, minValue]
  · rw [hxW]; simp [nodeW]
  · simp [nodeA]
  · simp [withinBounds, nextX_nodeA_nan move53, JSNum.ge, JSNum.le]
  · rw [hxN]; simp [nodeA]

/-- C8 (amended). Dragging never takes a node outside the graph: for a fixed
graph rect, every rounding of the arithmetic that never gives NaN, and a
state with finite `width` and `height` and a scale that is a non-zero number
(NaN excluded) which satisfies `0 <= x`, `0 <= y`,
`x + width <= graph.width` and `y + height <= graph.height`, the state
reached after any finite sequence of `_onMouseDown`, `_onMouseMove` and
`_onMouseUp` events still satisfies the four inequalities, and `width`,
`height` and `scale` are unchanged. -/
theorem drag_stays_inside_graph (round : ℚ → JSNum) (hround : ∀ q, round q ≠ JSNum.nan)
    (props : Props) (graph : GraphRect) (s : State)
    (events : List Event) (hg : getGraph props = some graph)
    (hsc : s.scale.isNonZeroNumber = true)
    (hw : s.width.isFinite = true) (hh : s.height.isFinite = true)
    (hin : inGraph round graph s = true) :
    inGraph round graph (run round props s events) = true ∧
    (run round props s events).width = s.width ∧
    (run round props s events).height = s.height ∧
    (run round props s events).scale = s.scale :=
  run_invariant round hround props graph events s hg hsc hw hh hin

/-- C8, at a concrete input: press, move by (5, 3), release, at scale 1 in a
graph of 100 by 100, from the origin: the node ends at (5, 3), inside the
graph. -/
theorem drag_stays_inside_graph_witness :
    inGraph JSNum.roundInRange rect100 (nodeA (JSNum.fin 1)) = true ∧
    (run JSNum.roundInRange propsA (nodeA (JSNum.fin 1))
      [Event.mouseDown leftDown, Event.mouseMove move53, Event.mouseUp leftDown]).x =
        JSNum.fin 5 ∧
    (run JSNum.roundInRange propsA (nodeA (JSNum.fin 1))
      [Event.mouseDown leftDown, Event.mouseMove move53, Event.mouseUp leftDown]).y =
        JSNum.fin 3 ∧
    inGraph JSNum.roundInRange rect100 (run JSNum.roundInRange propsA (nodeA (JSNum.fin 1))
      [Event.mouseDown leftDown, Event.mouseMove move53, Event.mouseUp leftDown]) = true := by
  have hd : (_onMouseDown (nodeA (JSNum.fin 1)) leftDown).1 = nodeA (JSNum.fin 1) := rfl
  have hm := onMouseMove_accepted JSNum.roundInRange propsA (nodeA (JSNum.fin 1)) move53 rect100
    rfl rfl rejects_nodeA_move53
  refine ⟨inGraph_nodeA, ?_, ?_, (drag_stays_inside_graph JSNum.roundInRange
    JSNum.roundInRange_ne_nan propsA rect100 (nodeA (JSNum.fin 1))
    [Event.mouseDown leftDown, Event.mouseMove move53, Event.mouseUp leftDown] rfl
    (by simp [nodeA, JSNum.isNonZeroNumber]) rfl rfl inGraph_nodeA).1⟩
  · simp only [run, List.foldl_cons, List.foldl_nil, step, hd, hm, _onMouseUp]
    exact nextX_nodeA_move53
  · simp only [run, List.foldl_cons, List.foldl_nil, step, hd, hm, _onMouseUp]
    exact nextY_nodeA_move53

/-- C8 as stated fails.  A node at the origin with width minus infinity and
the non-zero scale `5e-324` satisfies the four inequalities; after a press
and a move by 1 its `x` is plus infinity, `x + width` is NaN and
`x + width <= graph.width` is false.  With the scale NaN, which is not 0
either, a node inside the graph is taken to `x` NaN, and `0 <= x` is
false. -/
theorem drag_leaves_graph :
    (nodeW.scale ≠ JSNum.fin 0 ∧ inGraph JSNum.roundInRange rect100 nodeW = true ∧
      getGraph propsA = some rect100 ∧
      (run JSNum.roundInRange propsA nodeW
        [Event.mouseDown leftDown, Event.mouseMove move10]).x = JSNum.pinf ∧
      inGraph JSNum.roundInRange rect100 (run JSNum.roundInRange propsA nodeW
        [Event.mouseDown leftDown, Event.mouseMove move10]) = false) ∧
    ((nodeA JSNum.nan).scale ≠ JSNum.fin 0 ∧
      inGraph JSNum.roundInRange rect100 (nodeA JSNum.nan) = true ∧
      (run JSNum.roundInRange propsA (nodeA JSNum.nan)
        [Event.mouseDown leftDown, Event.mouseMove move53]).x = JSNum.nan ∧
      inGraph JSNum.roundInRange rect100 (run JSNum.roundInRange propsA (nodeA JSNum.nan)
        [Event.mouseDown leftDown, Event.mouseMove move53]) = false) := by
  have hdW : (_onMouseDown nodeW leftDown).1 = nodeW := rfl
  have hdN : (_onMouseDown (nodeA JSNum.nan) leftDown).1 = nodeA JSNum.nan := rfl
  have hmW := onMouseMove_accepted JSNum.roundInRange propsA nodeW move10 rect100 rfl rfl
    rejects_nodeW_move10
  have hmN := onMouseMove_accepted JSNum.roundInRange propsA (nodeA JSNum.nan) move53 rect100
    rfl rfl (rejects_nan_candidate _ _ _ _ (nextX_nodeA_nan move53) (nextY_nodeA_nan move53))
  have hrW : run JSNum.roundInRange propsA nodeW
      [Event.mouseDown leftDown, Event.mouseMove move10] =
      { nodeW with x := nextX JSNum.roundInRange nodeW move10,
                   y := nextY JSNum.roundInRange nodeW move10 } := by
    simp only [run, List.foldl_cons, List.foldl_nil, step, hdW, hmW]
  have hrN : run JSNum.roundInRange propsA (nodeA JSNum.nan)
      [Event.mouseDown leftDown, Event.mouseMove move53] =
      { nodeA JSNum.nan with x := nextX JSNum.roundInRange (nodeA JSNum.nan) move53,
                             y := nextY JSNum.roundInRange (nodeA JSNum.nan) move53 } := by
    simp only [run, List.foldl_cons, List.foldl_nil, step, hdN, hmN]
  have inN : inGraph JSNum.roundInRange rect100 (nodeA JSNum.nan) = true := by
    rw [← inGraph_nodeA]
    exact inGraph_congr JSNum.roundInRange rect100 rfl rfl rfl rfl
  refine ⟨⟨?_, inGraph_nodeW, rfl, ?_, ?_⟩, ⟨?_, inN, ?_, ?_⟩⟩
  · norm_num [nodeW, minValue]
  · rw [hrW]; exact nextX_nodeW_move10
  · rw [hrW]
    apply inGraph_false_of_sum_nan
    show JSNum.add JSNum.roundInRange (nextX JSNum.roundInRange nodeW move10) JSNum.ninf =
      JSNum.nan
    rw [nextX_nodeW_move10]; rfl
  · simp [nodeA]
  · rw [hrN]; exact nextX_nodeA_nan move53
  · rw [hrN]
    apply inGraph_false_of_x_nan
    exact nextX_nodeA_nan move53

end Node

/-! ## Graph: auxiliary facts -/

namespace Graph

theorem floor_draw_range (random : ℚ) (n : ℕ) (h0 : 0 ≤ random) (h1 : random < 1)
    (hn : 0 < n) : 0 ≤ ⌊random * (n : ℚ)⌋ ∧ ⌊random * (n : ℚ)⌋ ≤ (n : ℤ) - 1 := by
  have hnq : (0 : ℚ) < (n : ℚ) := by exact_mod_cast hn
  constructor
  · exact Int.floor_nonneg.2 (mul_nonneg h0 hnq.le)
  · have hlt : ⌊random * (n : ℚ)⌋ < (n : ℤ) := by
      apply Int.floor_lt.2
      have : random * (n : ℚ) < 1 * (n : ℚ) := mul_lt_mul_of_pos_right h1 hnq
      simpa using this
    omega

theorem nodeRef_injective {a b : String} (h : nodeRef a = nodeRef b) : a = b := by
  have h2 := congrArg String.data h
  simp only [nodeRef, String.data_append] at h2
  exact String.ext (List.append_cancel_left h2)

theorem addEdge_output (edge : Edge) (s : Node.State) :
    Node.addEdge "output" edge s =
      some { s with isCompactView := s.isCompactView && edge.sourceId.isString,
                    edges := { s.edges with output := s.edges.output ++ [edge] } } := by
  have h1 : ("output" == "input") = false := by decide
  have h2 : ("output" == "output") = true := by decide
  cases hc : s.isCompactView <;> cases hs : edge.sourceId.isString <;>
    simp [Node.addEdge, h1, h2, hc, hs]

theorem addEdge_input (edge : Edge) (s : Node.State) :
    Node.addEdge "input" edge s =
      some { s with isCompactView := s.isCompactView && edge.targetId.isString,
                    edges := { s.edges with input := s.edges.input ++ [edge] } } := by
  have h1 : ("input" == "input") = true := by decide
  have h2 : ("input" == "output") = false := by decide
  cases hc : s.isCompactView <;> cases hs : edge.targetId.isString <;>
    simp [Node.addEdge, h1, h2, hc, hs]

theorem sampleClass_appends : sampleClass.Appends := by
  intro edge node
  have h1 : ("output" == "input") = false := by decide
  have h2 : ("output" == "output") = true := by decide
  have h3 : ("input" == "input") = true := by decide
  refine ⟨⟨{ node with output := node.output ++ [edge] }, ?_, rfl, rfl⟩,
    ⟨{ node with input := node.input ++ [edge] }, ?_, rfl, rfl⟩⟩
  · simp [sampleClass, h1, h2]
  · simp [sampleClass, h3]

theorem addEdgeAt_output {N : Type} (cls : NodeClass N) (happ : cls.Appends)
    (nodes : String → Option N) (ref : String) (edge : Edge)
    (node : N) (h : nodes ref = some node) :
    ∃ nodes', addEdgeAt cls nodes ref "output" edge = some nodes' ∧
      (∀ r, (nodes' r).isSome = (nodes r).isSome) ∧
      (∀ r, outputsAt cls nodes' r = outputsAt cls nodes r ++ if r = ref then [edge] else []) ∧
      (∀ r, inputsAt cls nodes' r = inputsAt cls nodes r) := by
  obtain ⟨n', hs, ho, hi⟩ := (happ edge node).1
  refine ⟨Function.update nodes ref (some n'), by simp only [addEdgeAt, h, hs], ?_, ?_, ?_⟩
  · intro r
    by_cases hr : r = ref
    · subst hr; simp [h]
    · simp [Function.update_noteq hr]
  · intro r
    by_cases hr : r = ref
    · subst hr; simp [outputsAt, h, ho]
    · simp [outputsAt, Function.update_noteq hr, hr]
  · intro r
    by_cases hr : r = ref
    · subst hr; simp [inputsAt, h, hi]
    · simp [inputsAt, Function.update_noteq hr]

theorem addEdgeAt_input {N : Type} (cls : NodeClass N) (happ : cls.Appends)
    (nodes : String → Option N) (ref : String) (edge : Edge)
    (node : N) (h : nodes ref = some node) :
    ∃ nodes', addEdgeAt cls nodes ref "input" edge = some nodes' ∧
      (∀ r, (nodes' r).isSome = (nodes r).isSome) ∧
      (∀ r, inputsAt cls nodes' r = inputsAt cls nodes r ++ if r = ref then [edge] else []) ∧
      (∀ r, outputsAt cls nodes' r = outputsAt cls nodes r) := by
  obtain ⟨n', hs, hi, ho⟩ := (happ edge node).2
  refine ⟨Function.update nodes ref (some n'), by simp only [addEdgeAt, h, hs], ?_, ?_, ?_⟩
  · intro r
    by_cases hr : r = ref
    · subst hr; simp [h]
    · simp [Function.update_noteq hr]
  · intro r
    by_cases hr : r = ref
    · subst hr; simp [inputsAt, h, hi]
    · simp [inputsAt, Function.update_noteq hr, hr]
  · intro r
    by_cases hr : r = ref
    · subst hr; simp [outputsAt, h, ho]
    · simp [outputsAt, Function.update_noteq hr]

theorem mountEdge_spec {N : Type} (cls : NodeClass N) (happ : cls.Appends) (refs : Refs N)
    (m : Mounted N) (ep : EdgeProps)
    (hdom : ∀ r, (m.nodes r).isSome = (refs.node r).isSome) :
    ∃ m', mountEdge cls refs.edge m ep = some m' ∧
      (∀ r, (m'.nodes r).isSome = (refs.node r).isSome) ∧
      (∀ r, outputsAt cls m'.nodes r = outputsAt cls m.nodes r ++
        attachedEdges refs [ep] (fun e => decide (nodeRef e.source = r))) ∧
      (∀ r, inputsAt cls m'.nodes r = inputsAt cls m.nodes r ++
        attachedEdges refs [ep] (fun e => decide (nodeRef e.target = r))) ∧
      m'.builds = m.builds ++ buildCalls refs [ep] := by
  cases hs : m.nodes (nodeRef ep.source) with
  | none =>
      have hs2 : refs.node (nodeRef ep.source) = none := by
        have := hdom (nodeRef ep.source); rw [hs] at this
        cases h : refs.node (nodeRef ep.source) <;> simp_all
      refine ⟨m, by simp [mountEdge, hs], hdom, ?_, ?_, ?_⟩ <;>
        simp [attachedEdges, buildCalls, hasComponents, hs2]
  | some src =>
      cases ht : m.nodes (nodeRef ep.target) with
      | none =>
          have ht2 : refs.node (nodeRef ep.target) = none := by
            have := hdom (nodeRef ep.target); rw [ht] at this
            cases h : refs.node (nodeRef ep.target) <;> simp_all
          refine ⟨m, by simp [mountEdge, hs, ht], hdom, ?_, ?_, ?_⟩ <;>
            simp [attachedEdges, buildCalls, hasComponents, ht2]
      | some tgt =>
          cases he : refs.edge (edgeRef ep.source ep.target) with
          | none =>
              refine ⟨m, by simp [mountEdge, hs, ht, he], hdom, ?_, ?_, ?_⟩ <;>
                simp [attachedEdges, buildCalls, hasComponents, he]
          | some edge =>
              have hs2 : (refs.node (nodeRef ep.source)).isSome = true := by
                rw [← hdom, hs]; rfl
              have ht2 : (refs.node (nodeRef ep.target)).isSome = true := by
                rw [← hdom, ht]; rfl
              obtain ⟨n1, h1, d1, o1, i1⟩ :=
                addEdgeAt_output cls happ m.nodes (nodeRef ep.source) edge src hs
              have ht1 : ∃ tgt1, n1 (nodeRef ep.target) = some tgt1 := by
                have := d1 (nodeRef ep.target); rw [ht] at this
                cases h : n1 (nodeRef ep.target) <;> simp_all
              obtain ⟨tgt1, ht1⟩ := ht1
              obtain ⟨n2, h2, d2, i2, o2⟩ :=
                addEdgeAt_input cls happ n1 (nodeRef ep.target) edge tgt1 ht1
              refine ⟨{ nodes := n2, builds := m.builds ++
                  [{ edge := edge, sourceNode := nodeRef ep.source,
                     targetNode := nodeRef ep.target }] }, ?_, ?_, ?_, ?_, ?_⟩
              · simp only [mountEdge, hs, ht, he, h1, h2]
              · intro r; rw [d2, d1, hdom]
              · intro r
                rw [o2, o1]
                by_cases hr : r = nodeRef ep.source
                · subst hr; simp [attachedEdges, hasComponents, hs2, ht2, he]
                · have hr2 : ¬ nodeRef ep.source = r := fun h => hr h.symm
                  simp [attachedEdges, hr, hr2]
              · intro r
                rw [i2, i1]
                by_cases hr : r = nodeRef ep.target
                · subst hr; simp [attachedEdges, hasComponents, hs2, ht2, he]
                · have hr2 : ¬ nodeRef ep.target = r := fun h => hr h.symm
                  simp [attachedEdges, hr, hr2]
              · simp [buildCalls, hasComponents, hs2, ht2, he]

theorem attachedEdges_cons {N : Type} (refs : Refs N) (ep : EdgeProps) (eps : List EdgeProps)
    (keep : EdgeProps → Bool) :
    attachedEdges refs (ep :: eps) keep =
      attachedEdges refs [ep] keep ++ attachedEdges refs eps keep := by
  simp only [attachedEdges]
  rw [← List.filterMap_append]
  rfl

theorem buildCalls_cons {N : Type} (refs : Refs N) (ep : EdgeProps) (eps : List EdgeProps) :
    buildCalls refs (ep :: eps) = buildCalls refs [ep] ++ buildCalls refs eps := by
  simp only [buildCalls]
  rw [← List.filterMap_append]
  rfl

theorem foldlM_mountEdge_spec {N : Type} (cls : NodeClass N) (happ : cls.Appends)
    (refs : Refs N) (edges : List EdgeProps) :
    ∀ m : Mounted N, (∀ r, (m.nodes r).isSome = (refs.node r).isSome) →
      ∃ m', edges.foldlM (mountEdge cls refs.edge) m = some m' ∧
        (∀ r, (m'.nodes r).isSome = (refs.node r).isSome) ∧
        (∀ r, outputsAt cls m'.nodes r = outputsAt cls m.nodes r ++
          attachedEdges refs edges (fun e => decide (nodeRef e.source = r))) ∧
        (∀ r, inputsAt cls m'.nodes r = inputsAt cls m.nodes r ++
          attachedEdges refs edges (fun e => decide (nodeRef e.target = r))) ∧
        m'.builds = m.builds ++ buildCalls refs edges := by
  induction edges with
  | nil =>
      intro m hdom
      exact ⟨m, rfl, hdom, by simp [attachedEdges], by simp [attachedEdges],
        by simp [buildCalls]⟩
  | cons ep eps ih =>
      intro m hdom
      obtain ⟨m1, e1, d1, o1, i1, b1⟩ := mountEdge_spec cls happ refs m ep hdom
      obtain ⟨m2, e2, d2, o2, i2, b2⟩ := ih m1 d1
      refine ⟨m2, ?_, d2, ?_, ?_, ?_⟩
      · simp only [List.foldlM_cons, e1]
        exact e2
      · intro r
        rw [o2, o1, attachedEdges_cons refs ep eps, List.append_assoc]
      · intro r
        rw [i2, i1, attachedEdges_cons refs ep eps, List.append_assoc]
      · rw [b2, b1, buildCalls_cons refs ep eps, List.append_assoc]

theorem attachedEdges_congr {N : Type} (refs : Refs N) (edges : List EdgeProps)
    (keep keep2 : EdgeProps → Bool) (h : ∀ e, keep e = keep2 e) :
    attachedEdges refs edges keep = attachedEdges refs edges keep2 := by
  have : keep = keep2 := funext h
  rw [this]

end Graph

/-! ## Graph: click, layout and mount -/

namespace Graph

/-- C5. `handleClick` at the failing input: the store holds the nodes `a` and
`b`, both with their components, and the click target is a child of the
element of node `a`; the handler does not throw, calls `deselect` on the
component of `b` only, and does not call it on the component of `a`. -/
theorem handleClick_skips_clicked_node :
    storeA ∈ [storeA, storeB] ∧
    refsAB.node (nodeRef storeA.id) = some (component 1) ∧
    sampleClass.el (component 1) = clickOnA.targetParentNode ∧
    (handleClick sampleClass refsAB clickOnA [storeA, storeB]).threw = false ∧
    (handleClick sampleClass refsAB clickOnA [storeA, storeB]).deselected = ["node_b"] ∧
    nodeRef storeA.id ∉ (handleClick sampleClass refsAB clickOnA [storeA, storeB]).deselected := by
  refine ⟨by simp, by decide, by decide, by decide, by decide, by decide⟩

/-- C6. `render` lays out every node of the store.  When every value of
`Math.random()` lies in [0, 1), the node at index `i` of the store is
rendered with `x = min (i * (90 + r) + 50) (parentWidth - 100)`, `y = s` and
the ref `node_` followed by its id, where `r = floor(random * 10)` and
`s = floor(random * 500)` are the floors of its two draws; `r` lies in 0..9
and `s` in 0..499, `x <= parentWidth - 100`, `x <= 99 * i + 50` and
`x >= min (90 * i + 50) (parentWidth - 100)`.  The same holds of the body of
the loop for every `r` in 0..9 and every `s` in 0..499. -/
theorem render_lays_out_nodes (parentWidth : ℤ) (random : ℕ → ℚ) (nodes : List NodeProps)
    (i : ℕ) (nodeProps : NodeProps) (hi : nodes[i]? = some nodeProps)
    (hrandom : ∀ k, 0 ≤ random k ∧ random k < 1) :
    (∃ r s x : ℤ, r = ⌊random (2 * i) * 10⌋ ∧ s = ⌊random (2 * i + 1) * 500⌋ ∧
      0 ≤ r ∧ r ≤ 9 ∧ 0 ≤ s ∧ s ≤ 499 ∧
      x = min ((i : ℤ) * (90 + r) + 50) (parentWidth - 100) ∧
      (renderNodes parentWidth random nodes)[i]? =
        some { nodeProps with x := some x, y := some s,
                              ref := some ("node_" ++ nodeProps.id) } ∧
      (∀ edges : List EdgeProps, (render parentWidth random edges nodes)[edges.length + i]? =
        some (Element.node { nodeProps with x := some x, y := some s,
                                            ref := some ("node_" ++ nodeProps.id) })) ∧
      x ≤ parentWidth - 100 ∧ x ≤ 99 * (i : ℤ) + 50 ∧
      min (90 * (i : ℤ) + 50) (parentWidth - 100) ≤ x) ∧
    (∀ r s : ℤ, 0 ≤ r → r ≤ 9 → 0 ≤ s → s ≤ 499 →
      ∃ x : ℤ, layoutNode i parentWidth r s nodeProps =
          { nodeProps with x := some x, y := some s, ref := some ("node_" ++ nodeProps.id) } ∧
        x = min ((i : ℤ) * (90 + r) + 50) (parentWidth - 100) ∧
        x ≤ parentWidth - 100 ∧ x ≤ 99 * (i : ℤ) + 50 ∧
        min (90 * (i : ℤ) + 50) (parentWidth - 100) ≤ x) := by
  have hi0 : (0 : ℤ) ≤ (i : ℤ) := Int.natCast_nonneg i
  have bounds : ∀ r : ℤ, 0 ≤ r → r ≤ 9 →
      min ((i : ℤ) * (90 + r) + 50) (parentWidth - 100) ≤ 99 * (i : ℤ) + 50 ∧
      min (90 * (i : ℤ) + 50) (parentWidth - 100) ≤
        min ((i : ℤ) * (90 + r) + 50) (parentWidth - 100) := by
    intro r hr0 hr9
    constructor
    · apply le_trans (min_le_left _ _)
      nlinarith
    · apply le_min
      · apply le_trans (min_le_left _ _)
        nlinarith
      · exact min_le_right _ _
  constructor
  · have hr := floor_draw_range (random (2 * i)) 10 (hrandom _).1 (hrandom _).2 (by norm_num)
    have hs := floor_draw_range (random (2 * i + 1)) 500 (hrandom _).1 (hrandom _).2
      (by norm_num)
    have hr0 : 0 ≤ ⌊random (2 * i) * 10⌋ := by simpa using hr.1
    have hr9 : ⌊random (2 * i) * 10⌋ ≤ 9 := by have := hr.2; simpa using this
    have hs0 : 0 ≤ ⌊random (2 * i + 1) * 500⌋ := by simpa using hs.1
    have hs9 : ⌊random (2 * i + 1) * 500⌋ ≤ 499 := by have := hs.2; simpa using this
    refine ⟨_, _, _, rfl, rfl, hr0, hr9, hs0, hs9, rfl, ?_, ?_, min_le_right _ _,
      (bounds _ hr0 hr9).1, (bounds _ hr0 hr9).2⟩
    · simp [renderNodes, hi, layoutNode, floorRandom]
    · intro edges
      simp [render, renderNodes, hi, List.getElem?_append_right, layoutNode, floorRandom]
  · intro r s hr0 hr9 _ _
    exact ⟨_, rfl, rfl, min_le_right _ _, (bounds r hr0 hr9).1, (bounds r hr0 hr9).2⟩

/-- C6, at a concrete input: with every draw one half, `r = 5` and `s = 250`,
and the second node of the store, in a parent of width 1000, is rendered at
`x = 145`, `y = 250` with the ref `node_b`. -/
theorem render_lays_out_nodes_witness :
    [storeA, storeB][1]? = some storeB ∧
    ⌊halves (2 * 1) * 10⌋ = 5 ∧ ⌊halves (2 * 1 + 1) * 500⌋ = 250 ∧
    (renderNodes 1000 halves [storeA, storeB])[1]? =
      some { id := "b", x := some 145, y := some 250, ref := some "node_b" } := by
  have h5 : ⌊halves (2 * 1) * 10⌋ = 5 := by
    rw [Int.floor_eq_iff]; norm_num [halves]
  have h250 : ⌊halves (2 * 1 + 1) * 500⌋ = 250 := by
    rw [Int.floor_eq_iff]; norm_num [halves]
  obtain ⟨r, s, x, hr, hs, _, _, _, _, hx, hrender, _⟩ :=
    (render_lays_out_nodes 1000 halves [storeA, storeB] 1 storeB rfl
      (fun _ => by norm_num [halves])).1
  refine ⟨rfl, h5, h250, ?_⟩
  rw [hrender, hx, hs, hr, h5, h250]
  decide

/-- C4 (amended). `componentDidMount` draws the edges between the nodes.  For
a node class whose `addEdge` appends the edge to the end of the list of the
given type and leaves the other list unchanged, and starting from nodes with
empty edge lists, the loop over the store's edges completes, and afterwards
the output list of every node is, in store order, the edge components of the
store edges with that node as source that have their source node, target
node and edge components, and its input list the same for the edges with
that node as target; `build` is called once for each such edge, in store
order; an edge with a missing source, target or edge component changes
nothing.  `addEdge` of `src/Node/index.js` appends the edge to the end of the
list of the given type and leaves the other list and every other field
unchanged, except `isCompactView`, which becomes false when the type is
`output` and `edge.sourceId` is not a string, or the type is `input` and
`edge.targetId` is not a string. -/
theorem componentDidMount_attaches_edges {N : Type} (cls : NodeClass N) (refs : Refs N)
    (edges : List EdgeProps) (happ : cls.Appends)
    (hempty : ∀ r node, refs.node r = some node → cls.input node = [] ∧ cls.output node = []) :
    (∃ m, componentDidMount cls refs edges = some m ∧
      (∀ id node, refs.node (nodeRef id) = some node →
        ∃ node', m.nodes (nodeRef id) = some node' ∧
          cls.output node' = attachedEdges refs edges (fun e => decide (e.source = id)) ∧
          cls.input node' = attachedEdges refs edges (fun e => decide (e.target = id))) ∧
      m.builds = buildCalls refs edges) ∧
    (∀ (m0 : Mounted N) (edgesProps : EdgeProps),
      (m0.nodes (nodeRef edgesProps.source) = none ∨
        m0.nodes (nodeRef edgesProps.target) = none ∨
        refs.edge (edgeRef edgesProps.source edgesProps.target) = none) →
      mountEdge cls refs.edge m0 edgesProps = some m0) ∧
    (∀ (edge : Edge) (s : Node.State),
      Node.addEdge "output" edge s =
        some { s with isCompactView := s.isCompactView && edge.sourceId.isString,
                      edges := { s.edges with output := s.edges.output ++ [edge] } } ∧
      Node.addEdge "input" edge s =
        some { s with isCompactView := s.isCompactView && edge.targetId.isString,
                      edges := { s.edges with input := s.edges.input ++ [edge] } }) := by
  refine ⟨?_, ?_, fun edge s => ⟨addEdge_output edge s, addEdge_input edge s⟩⟩
  · obtain ⟨m, hm, hd, ho, hi, hb⟩ :=
      foldlM_mountEdge_spec cls happ refs edges { nodes := refs.node, builds := [] }
        (fun _ => rfl)
    refine ⟨m, hm, ?_, by simpa using hb⟩
    intro id node hnode
    have hsome : (m.nodes (nodeRef id)).isSome = true := by rw [hd, hnode]; rfl
    obtain ⟨node', hnode'⟩ := Option.isSome_iff_exists.1 hsome
    have hkeepS : ∀ e : EdgeProps,
        decide (nodeRef e.source = nodeRef id) = decide (e.source = id) := by
      intro e
      by_cases h : e.source = id
      · simp [h]
      · have : ¬ nodeRef e.source = nodeRef id := fun h2 => h (nodeRef_injective h2)
        simp [h, this]
    have hkeepT : ∀ e : EdgeProps,
        decide (nodeRef e.target = nodeRef id) = decide (e.target = id) := by
      intro e
      by_cases h : e.target = id
      · simp [h]
      · have : ¬ nodeRef e.target = nodeRef id := fun h2 => h (nodeRef_injective h2)
        simp [h, this]
    refine ⟨node', hnode', ?_, ?_⟩
    · have := ho (nodeRef id)
      simp only [outputsAt, hnode', hnode, (hempty _ _ hnode).2, List.nil_append] at this
      rw [this]
      exact attachedEdges_congr refs edges _ _ hkeepS
    · have := hi (nodeRef id)
      simp only [inputsAt, hnode', hnode, (hempty _ _ hnode).1, List.nil_append] at this
      rw [this]
      exact attachedEdges_congr refs edges _ _ hkeepT
  · intro m0 ep h
    rcases h with h | h | h
    · simp [mountEdge, h]
    · cases hs : m0.nodes (nodeRef ep.source) <;> simp [mountEdge, h, hs]
    · cases hs : m0.nodes (nodeRef ep.source) <;> cases ht : m0.nodes (nodeRef ep.target) <;>
        simp [mountEdge, h, hs, ht]

/-- C4, at a concrete input: in the graph with nodes `a` and `b`, the store
edges `a` to `b` and `b` to `c` (whose target has no component) leave node
`a` with the output list holding the edge component of `a` to `b` and an
empty input list, and `build` is called once. -/
theorem componentDidMount_attaches_edges_witness :
    ∃ m, componentDidMount sampleClass refsAB [⟨"a", "b"⟩, ⟨"b", "c"⟩] = some m ∧
      (∃ node', m.nodes (nodeRef "a") = some node' ∧
        node'.output = [Node.edgeAB] ∧ node'.input = []) ∧
      m.builds = [{ edge := Node.edgeAB, sourceNode := "node_a", targetNode := "node_b" }] := by
  have hempty : ∀ r node, refsAB.node r = some node →
      sampleClass.input node = [] ∧ sampleClass.output node = [] := by
    intro r node h
    simp only [refsAB] at h
    split at h
    · cases h; exact ⟨rfl, rfl⟩
    · split at h
      · cases h; exact ⟨rfl, rfl⟩
      · cases h
  obtain ⟨m, hm, hn, hb⟩ :=
    (componentDidMount_attaches_edges sampleClass refsAB [⟨"a", "b"⟩, ⟨"b", "c"⟩]
      sampleClass_appends hempty).1
  obtain ⟨node', h1, h2, h3⟩ := hn "a" (component 1) (by decide)
  refine ⟨m, hm, ⟨node', h1, ?_, ?_⟩, ?_⟩
  · exact h2.trans (by decide)
  · exact h3.trans (by decide)
  · rw [hb]; decide

/-- C4 as stated fails: `addEdge` changes more than the list of the given
type.  Adding as input an edge whose `targetId` is not a string to a node in
compact view sets `isCompactView` to false. -/
theorem addEdge_leaves_compact_view :
    (Node.nodeA (JSNum.fin 1)).isCompactView = true ∧
    Node.edgeToPort.targetId.isString = false ∧
    Option.map Node.State.isCompactView
      (Node.addEdge "input" Node.edgeToPort (Node.nodeA (JSNum.fin 1))) = some false := by
  refine ⟨rfl, rfl, ?_⟩
  rw [addEdge_input]
  rfl

end Graph
